import Mathlib

/-!
Verification development for the Reach core simulation
(`src/presence.js` and `src/game.js`).

The JavaScript numeric state is modelled over the real numbers: every
numeric field becomes an `ℝ`, `Math.max`/`Math.min` become `max`/`min`,
and `Math.exp` becomes `Real.exp`.  The `Game.update` while-loop, which
drains the accumulator in slices of `fixedDt`, is modelled by iterating
the loop body `⌊accumulator / fixedDt⌋` times; this is exactly the number
of iterations the source loop performs whenever `fixedDt > 0` (in the
program `fixedDt` is the constant `1/60`).
-/

namespace Reach

/-- The `GameState` enumeration of `game.js`. -/
inductive GameState where
  | playing
  | won
  | failed
deriving DecidableEq

/-- The `Presence` class of `presence.js`: all of its instance fields. -/
@[ext]
structure Presence where
  x : ℝ
  y : ℝ
  radius : ℝ
  expandRate : ℝ
  retractRate : ℝ
  minRadius : ℝ
  maxRadius : ℝ
  expandDirection : ℝ
  targetRadius : ℝ
  radiusSmoothness : ℝ

/-- The `Presence` constructor: `new Presence(x, y)`. -/
noncomputable def Presence.init (x y : ℝ) : Presence where
  x := x
  y := y
  radius := 0.15
  expandRate := 0.12
  retractRate := 0.18
  minRadius := 0.05
  maxRadius := 0.6
  expandDirection := 0
  targetRadius := 0.15
  radiusSmoothness := 8.0

/-- `Presence.setExpandDirection(direction)`: clamps the input to [-1, 1]. -/
noncomputable def Presence.setExpandDirection (p : Presence) (direction : ℝ) : Presence :=
  { p with expandDirection := max (-1) (min 1 direction) }

/-- `Presence.update(dt)`: advances `targetRadius` by the direction-dependent
rate, clamps it to `[minRadius, maxRadius]`, then moves `radius` toward
`targetRadius` by the exponential-smoothing fraction `1 - e^(-radiusSmoothness*dt)`. -/
noncomputable def Presence.update (p : Presence) (dt : ℝ) : Presence :=
  let targetRadius0 :=
    if p.expandDirection > 0 then
      p.targetRadius + p.expandRate * p.expandDirection * dt
    else if p.expandDirection < 0 then
      p.targetRadius + p.retractRate * p.expandDirection * dt
    else p.targetRadius
  let targetRadius1 := max p.minRadius (min p.maxRadius targetRadius0)
  let t := 1 - Real.exp (-p.radiusSmoothness * dt)
  { p with targetRadius := targetRadius1,
           radius := p.radius + (targetRadius1 - p.radius) * t }

/-- `Presence.getOverextension(sustainableThreshold)`: 0 if
`radius ≤ sustainableThreshold`, otherwise the normalized excess, capped at 1. -/
noncomputable def Presence.getOverextension
    (p : Presence) (sustainableThreshold : ℝ) : ℝ :=
  if p.radius ≤ sustainableThreshold then 0
  else
    min 1 ((p.radius - sustainableThreshold) /
      (p.maxRadius - sustainableThreshold))

/-- The `Game` class of `game.js`: all of its instance fields
(the presence object plus every numeric/state scalar set in the constructor). -/
@[ext]
structure Game where
  presence : Presence
  state : GameState
  time : ℝ
  gameTime : ℝ
  winTime : ℝ
  clarity : ℝ
  sustainableThreshold : ℝ
  thresholdDecayRate : ℝ
  clarityRecoveryRate : ℝ
  clarityDecayRate : ℝ
  clarityMinRecovery : ℝ
  failureClarity : ℝ
  fixedDt : ℝ
  accumulator : ℝ

/-- The `Game` constructor: `new Game()`. -/
noncomputable def Game.init : Game where
  presence := Presence.init 0.5 0.5
  state := GameState.playing
  time := 0
  gameTime := 0
  winTime := 180
  clarity := 1.0
  sustainableThreshold := 0.4
  thresholdDecayRate := 0.008
  clarityRecoveryRate := 0.15
  clarityDecayRate := 0.25
  clarityMinRecovery := 0.3
  failureClarity := 0.15
  fixedDt := 1 / 60
  accumulator := 0

/-- `Game._fixedUpdate(dt, expandDirection)`: one deterministic fixed tick,
in source order: advance `gameTime`; forward the direction to the presence
and advance it; decay `sustainableThreshold` (floored at 0.1); compute
overextension; update clarity (decay when overextended, otherwise recover
toward the time-shrinking ceiling); then the win check followed by the
fail check. -/
noncomputable def Game.fixedUpdate (g : Game) (dt expandDirection : ℝ) : Game :=
  let gameTime := g.gameTime + dt
  let presence := (g.presence.setExpandDirection expandDirection).update dt
  let sustainableThreshold :=
    max 0.1 (g.sustainableThreshold - g.thresholdDecayRate * dt)
  let overextension := presence.getOverextension sustainableThreshold
  let clarity :=
    if overextension > 0 then
      max 0 (g.clarity - g.clarityDecayRate * overextension * dt)
    else
      let targetClarity :=
        max g.clarityMinRecovery (1 - gameTime / g.winTime * 0.3)
      if g.clarity < targetClarity then
        min targetClarity (g.clarity + g.clarityRecoveryRate * dt)
      else g.clarity
  let state1 := if gameTime ≥ g.winTime then GameState.won else g.state
  let state2 := if clarity ≤ g.failureClarity then GameState.failed else state1
  { g with gameTime := gameTime, presence := presence,
           sustainableThreshold := sustainableThreshold,
           clarity := clarity, state := state2 }

/-- One iteration of the while-loop body in `Game.update`:
`this._fixedUpdate(this.fixedDt, expandDirection); this.accumulator -= this.fixedDt;`. -/
noncomputable def Game.tick (g : Game) (expandDirection : ℝ) : Game :=
  { g.fixedUpdate g.fixedDt expandDirection with
      accumulator := g.accumulator - g.fixedDt }

/-- Iterating the while-loop body a given number of times. -/
noncomputable def Game.ticksFrom (g : Game) (expandDirection : ℝ) : ℕ → Game
  | 0 => g
  | n + 1 => (g.tick expandDirection).ticksFrom expandDirection n

/-- The number of iterations of `while (accumulator >= fixedDt)` performed by
`Game.update`; equal to the source loop's iteration count whenever
`fixedDt > 0` (always `1/60` in the program). -/
noncomputable def Game.drainCount (g : Game) : ℕ :=
  ⌊g.accumulator / g.fixedDt⌋₊

/-- `Game.update(dt, expandDirection)`: early-returns unless PLAYING, then
accumulates wall-clock time and drains the accumulator in fixed slices. -/
noncomputable def Game.update (g : Game) (dt expandDirection : ℝ) : Game :=
  if g.state ≠ GameState.playing then g
  else
    let g1 := { g with time := g.time + dt, accumulator := g.accumulator + dt }
    g1.ticksFrom expandDirection g1.drainCount

/-- `Game.reset()`: replaces the presence and restores the mutable scalars
(`state`, `time`, `gameTime`, `clarity`, `sustainableThreshold`) to their
constructor values.  Note the source does not touch `accumulator`. -/
noncomputable def Game.reset (g : Game) : Game :=
  { g with presence := Presence.init 0.5 0.5,
           state := GameState.playing,
           time := 0,
           gameTime := 0,
           clarity := 1.0,
           sustainableThreshold := 0.4 }

/-- A sequence of `update(dt, direction)` calls, applied in order. -/
noncomputable def Game.runCalls (g : Game) : List (ℝ × ℝ) → Game
  | [] => g
  | c :: cs => (g.update c.1 c.2).runCalls cs

/-- Draining ticks with a per-tick direction list (generalizes `ticksFrom`
to directions that could vary between the internal fixed ticks). -/
noncomputable def Game.ticksWith (g : Game) : List ℝ → Game
  | [] => g
  | d :: ds => (g.tick d).ticksWith ds

/-- The game states reachable from a fresh controller by `update` calls with
nonnegative `dt` (any direction; the presence clamps it) and by `reset`. -/
inductive Game.Reachable : Game → Prop where
  | init : Game.Reachable Game.init
  | update (g : Game) (dt expandDirection : ℝ) (hg : Game.Reachable g)
      (hdt : 0 ≤ dt) : Game.Reachable (g.update dt expandDirection)
  | reset (g : Game) (hg : Game.Reachable g) : Game.Reachable g.reset

/-! ### Projection lemmas (all definitional) -/

theorem Presence.update_targetRadius (p : Presence) (dt : ℝ) :
    (p.update dt).targetRadius =
      max p.minRadius (min p.maxRadius
        (if p.expandDirection > 0 then
          p.targetRadius + p.expandRate * p.expandDirection * dt
        else if p.expandDirection < 0 then
          p.targetRadius + p.retractRate * p.expandDirection * dt
        else p.targetRadius)) := rfl

theorem Presence.update_radius (p : Presence) (dt : ℝ) :
    (p.update dt).radius =
      p.radius + ((p.update dt).targetRadius - p.radius) *
        (1 - Real.exp (-p.radiusSmoothness * dt)) := rfl

@[simp] theorem Presence.update_minRadius (p : Presence) (dt : ℝ) :
    (p.update dt).minRadius = p.minRadius := rfl

@[simp] theorem Presence.update_maxRadius (p : Presence) (dt : ℝ) :
    (p.update dt).maxRadius = p.maxRadius := rfl

@[simp] theorem Presence.update_expandRate (p : Presence) (dt : ℝ) :
    (p.update dt).expandRate = p.expandRate := rfl

@[simp] theorem Presence.update_retractRate (p : Presence) (dt : ℝ) :
    (p.update dt).retractRate = p.retractRate := rfl

@[simp] theorem Presence.update_radiusSmoothness (p : Presence) (dt : ℝ) :
    (p.update dt).radiusSmoothness = p.radiusSmoothness := rfl

@[simp] theorem Presence.setExpandDirection_radius (p : Presence) (d : ℝ) :
    (p.setExpandDirection d).radius = p.radius := rfl

@[simp] theorem Presence.setExpandDirection_targetRadius (p : Presence) (d : ℝ) :
    (p.setExpandDirection d).targetRadius = p.targetRadius := rfl

@[simp] theorem Presence.setExpandDirection_minRadius (p : Presence) (d : ℝ) :
    (p.setExpandDirection d).minRadius = p.minRadius := rfl

@[simp] theorem Presence.setExpandDirection_maxRadius (p : Presence) (d : ℝ) :
    (p.setExpandDirection d).maxRadius = p.maxRadius := rfl

@[simp] theorem Presence.setExpandDirection_expandRate (p : Presence) (d : ℝ) :
    (p.setExpandDirection d).expandRate = p.expandRate := rfl

@[simp] theorem Presence.setExpandDirection_retractRate (p : Presence) (d : ℝ) :
    (p.setExpandDirection d).retractRate = p.retractRate := rfl

@[simp] theorem Presence.setExpandDirection_radiusSmoothness (p : Presence) (d : ℝ) :
    (p.setExpandDirection d).radiusSmoothness = p.radiusSmoothness := rfl

@[simp] theorem Presence.setExpandDirection_expandDirection (p : Presence) (d : ℝ) :
    (p.setExpandDirection d).expandDirection = max (-1) (min 1 d) := rfl

@[simp] theorem Game.fixedUpdate_gameTime (g : Game) (dt d : ℝ) :
    (g.fixedUpdate dt d).gameTime = g.gameTime + dt := rfl

@[simp] theorem Game.fixedUpdate_presence (g : Game) (dt d : ℝ) :
    (g.fixedUpdate dt d).presence =
      (g.presence.setExpandDirection d).update dt := rfl

@[simp] theorem Game.fixedUpdate_sustainableThreshold (g : Game) (dt d : ℝ) :
    (g.fixedUpdate dt d).sustainableThreshold =
      max 0.1 (g.sustainableThreshold - g.thresholdDecayRate * dt) := rfl

theorem Game.fixedUpdate_clarity (g : Game) (dt d : ℝ) :
    (g.fixedUpdate dt d).clarity =
      if ((g.presence.setExpandDirection d).update dt).getOverextension
          (max 0.1 (g.sustainableThreshold - g.thresholdDecayRate * dt)) > 0 then
        max 0 (g.clarity - g.clarityDecayRate *
          ((g.presence.setExpandDirection d).update dt).getOverextension
            (max 0.1 (g.sustainableThreshold - g.thresholdDecayRate * dt)) * dt)
      else
        if g.clarity <
            max g.clarityMinRecovery (1 - (g.gameTime + dt) / g.winTime * 0.3) then
          min (max g.clarityMinRecovery (1 - (g.gameTime + dt) / g.winTime * 0.3))
            (g.clarity + g.clarityRecoveryRate * dt)
        else g.clarity := rfl

theorem Game.fixedUpdate_state (g : Game) (dt d : ℝ) :
    (g.fixedUpdate dt d).state =
      if (g.fixedUpdate dt d).clarity ≤ g.failureClarity then GameState.failed
      else if g.gameTime + dt ≥ g.winTime then GameState.won
      else g.state := rfl

@[simp] theorem Game.fixedUpdate_time (g : Game) (dt d : ℝ) :
    (g.fixedUpdate dt d).time = g.time := rfl

@[simp] theorem Game.fixedUpdate_accumulator (g : Game) (dt d : ℝ) :
    (g.fixedUpdate dt d).accumulator = g.accumulator := rfl

@[simp] theorem Game.fixedUpdate_winTime (g : Game) (dt d : ℝ) :
    (g.fixedUpdate dt d).winTime = g.winTime := rfl

@[simp] theorem Game.fixedUpdate_thresholdDecayRate (g : Game) (dt d : ℝ) :
    (g.fixedUpdate dt d).thresholdDecayRate = g.thresholdDecayRate := rfl

@[simp] theorem Game.fixedUpdate_clarityRecoveryRate (g : Game) (dt d : ℝ) :
    (g.fixedUpdate dt d).clarityRecoveryRate = g.clarityRecoveryRate := rfl

@[simp] theorem Game.fixedUpdate_clarityDecayRate (g : Game) (dt d : ℝ) :
    (g.fixedUpdate dt d).clarityDecayRate = g.clarityDecayRate := rfl

@[simp] theorem Game.fixedUpdate_clarityMinRecovery (g : Game) (dt d : ℝ) :
    (g.fixedUpdate dt d).clarityMinRecovery = g.clarityMinRecovery := rfl

@[simp] theorem Game.fixedUpdate_failureClarity (g : Game) (dt d : ℝ) :
    (g.fixedUpdate dt d).failureClarity = g.failureClarity := rfl

@[simp] theorem Game.fixedUpdate_fixedDt (g : Game) (dt d : ℝ) :
    (g.fixedUpdate dt d).fixedDt = g.fixedDt := rfl

/-! ### The exponential smoothing fraction lies in [0, 1] -/

theorem smoothing_nonneg {s dt : ℝ} (hs : 0 ≤ s) (hdt : 0 ≤ dt) :
    0 ≤ 1 - Real.exp (-s * dt) := by
  have h : Real.exp (-s * dt) ≤ 1 := by
    rw [Real.exp_le_one_iff]
    nlinarith
  linarith

theorem smoothing_le_one (s dt : ℝ) : 1 - Real.exp (-s * dt) ≤ 1 := by
  have := Real.exp_pos (-s * dt)
  linarith

/-! ### Radius bounds under `Presence.update` -/

theorem Presence.update_radius_mem (p : Presence) (dt : ℝ) (hdt : 0 ≤ dt)
    (hs : 0 ≤ p.radiusSmoothness) (hmm : p.minRadius ≤ p.maxRadius)
    (h1 : p.minRadius ≤ p.radius) (h2 : p.radius ≤ p.maxRadius) :
    (p.minRadius ≤ (p.update dt).radius ∧ (p.update dt).radius ≤ p.maxRadius) ∧
      p.minRadius ≤ (p.update dt).targetRadius ∧
      (p.update dt).targetRadius ≤ p.maxRadius := by
  have htr1 : p.minRadius ≤ (p.update dt).targetRadius := by
    rw [Presence.update_targetRadius]
    exact le_max_left _ _
  have htr2 : (p.update dt).targetRadius ≤ p.maxRadius := by
    rw [Presence.update_targetRadius]
    exact max_le hmm (min_le_left _ _)
  have ht0 : 0 ≤ 1 - Real.exp (-p.radiusSmoothness * dt) := smoothing_nonneg hs hdt
  have ht1 : 1 - Real.exp (-p.radiusSmoothness * dt) ≤ 1 := smoothing_le_one _ _
  refine ⟨⟨?_, ?_⟩, htr1, htr2⟩
  · rw [Presence.update_radius]
    nlinarith [mul_nonneg (sub_nonneg.mpr h1) (sub_nonneg.mpr ht1),
      mul_nonneg (sub_nonneg.mpr htr1) ht0]
  · rw [Presence.update_radius]
    nlinarith [mul_nonneg (sub_nonneg.mpr h2) (sub_nonneg.mpr ht1),
      mul_nonneg (sub_nonneg.mpr htr2) ht0]

/-! ### The controller invariant -/

/-- Everything that is true of a fresh controller and preserved by every
fixed tick with nonnegative `dt`: the constructor constants are immutable,
the presence radii stay inside `[minRadius, maxRadius]`, clarity stays in
`[0, 1]`, the sustainable threshold stays in `[0.1, 1]`, and game time
stays nonnegative. -/
structure Game.Inv (g : Game) : Prop where
  expandRate : g.presence.expandRate = 0.12
  retractRate : g.presence.retractRate = 0.18
  minRadius : g.presence.minRadius = 0.05
  maxRadius : g.presence.maxRadius = 0.6
  smoothness : g.presence.radiusSmoothness = 8.0
  radius_lb : g.presence.minRadius ≤ g.presence.radius
  radius_ub : g.presence.radius ≤ g.presence.maxRadius
  target_lb : g.presence.minRadius ≤ g.presence.targetRadius
  target_ub : g.presence.targetRadius ≤ g.presence.maxRadius
  clarity_lb : 0 ≤ g.clarity
  clarity_ub : g.clarity ≤ 1
  thr_lb : 0.1 ≤ g.sustainableThreshold
  thr_ub : g.sustainableThreshold ≤ 1
  gameTime_nonneg : 0 ≤ g.gameTime
  winTime_eq : g.winTime = 180
  thresholdDecayRate_eq : g.thresholdDecayRate = 0.008
  clarityRecoveryRate_eq : g.clarityRecoveryRate = 0.15
  clarityDecayRate_eq : g.clarityDecayRate = 0.25
  clarityMinRecovery_eq : g.clarityMinRecovery = 0.3
  failureClarity_eq : g.failureClarity = 0.15
  fixedDt_eq : g.fixedDt = 1 / 60

theorem Game.inv_init : Game.init.Inv := by
  constructor <;> norm_num [Game.init, Presence.init]

theorem Game.Inv.fixedUpdate {g : Game} (hg : g.Inv) {dt : ℝ} (hdt : 0 ≤ dt)
    (d : ℝ) : (g.fixedUpdate dt d).Inv := by
  have hs' : 0 ≤ (g.presence.setExpandDirection d).radiusSmoothness := by
    rw [Presence.setExpandDirection_radiusSmoothness, hg.smoothness]; norm_num
  have hmm' : (g.presence.setExpandDirection d).minRadius ≤
      (g.presence.setExpandDirection d).maxRadius := by
    rw [Presence.setExpandDirection_minRadius,
      Presence.setExpandDirection_maxRadius, hg.minRadius, hg.maxRadius]
    norm_num
  have h1' : (g.presence.setExpandDirection d).minRadius ≤
      (g.presence.setExpandDirection d).radius := by
    rw [Presence.setExpandDirection_minRadius, Presence.setExpandDirection_radius]
    exact hg.radius_lb
  have h2' : (g.presence.setExpandDirection d).radius ≤
      (g.presence.setExpandDirection d).maxRadius := by
    rw [Presence.setExpandDirection_maxRadius, Presence.setExpandDirection_radius]
    exact hg.radius_ub
  have hp := Presence.update_radius_mem (g.presence.setExpandDirection d) dt hdt
    hs' hmm' h1' h2'
  refine
    { expandRate := by simp [hg.expandRate]
      retractRate := by simp [hg.retractRate]
      minRadius := by simp [hg.minRadius]
      maxRadius := by simp [hg.maxRadius]
      smoothness := by simp [hg.smoothness]
      radius_lb := by simpa using hp.1.1
      radius_ub := by simpa using hp.1.2
      target_lb := by simpa using hp.2.1
      target_ub := by simpa using hp.2.2
      clarity_lb := ?_
      clarity_ub := ?_
      thr_lb := by
        rw [Game.fixedUpdate_sustainableThreshold]
        exact le_max_left _ _
      thr_ub := ?_
      gameTime_nonneg := by
        rw [Game.fixedUpdate_gameTime]
        exact add_nonneg hg.gameTime_nonneg hdt
      winTime_eq := by simp [hg.winTime_eq]
      thresholdDecayRate_eq := by simp [hg.thresholdDecayRate_eq]
      clarityRecoveryRate_eq := by simp [hg.clarityRecoveryRate_eq]
      clarityDecayRate_eq := by simp [hg.clarityDecayRate_eq]
      clarityMinRecovery_eq := by simp [hg.clarityMinRecovery_eq]
      failureClarity_eq := by simp [hg.failureClarity_eq]
      fixedDt_eq := by simp [hg.fixedDt_eq] }
  · rw [Game.fixedUpdate_clarity]
    split_ifs with h1 h2
    · exact le_max_left _ _
    · refine le_min (le_trans ?_ (le_max_left _ _)) ?_
      · rw [hg.clarityMinRecovery_eq]; norm_num
      · have hrec : 0 ≤ g.clarityRecoveryRate * dt := by
          rw [hg.clarityRecoveryRate_eq]
          have : (0:ℝ) ≤ 0.15 := by norm_num
          exact mul_nonneg this hdt
        linarith [hg.clarity_lb]
    · exact hg.clarity_lb
  · rw [Game.fixedUpdate_clarity]
    split_ifs with h1 h2
    · have hprod : 0 ≤ g.clarityDecayRate *
          (((g.presence.setExpandDirection d).update dt).getOverextension
            (max 0.1 (g.sustainableThreshold - g.thresholdDecayRate * dt))) * dt := by
        refine mul_nonneg (mul_nonneg ?_ h1.le) hdt
        rw [hg.clarityDecayRate_eq]; norm_num
      refine max_le (by norm_num) ?_
      linarith [hg.clarity_ub]
    · refine (min_le_left _ _).trans (max_le ?_ ?_)
      · rw [hg.clarityMinRecovery_eq]; norm_num
      · have hq : 0 ≤ (g.gameTime + dt) / g.winTime * 0.3 := by
          rw [hg.winTime_eq]
          have h0 : 0 ≤ g.gameTime + dt := add_nonneg hg.gameTime_nonneg hdt
          have : (0:ℝ) ≤ (g.gameTime + dt) / 180 := by positivity
          nlinarith
        linarith
    · exact hg.clarity_ub
  · rw [Game.fixedUpdate_sustainableThreshold]
    refine max_le (by norm_num) ?_
    have : 0 ≤ g.thresholdDecayRate * dt := by
      rw [hg.thresholdDecayRate_eq]
      have : (0:ℝ) ≤ 0.008 := by norm_num
      exact mul_nonneg this hdt
    linarith [hg.thr_ub]

/-- The invariant ignores `time` and `accumulator`, so it transports across
record updates of those fields. -/
theorem Game.Inv.of_accumulator {g : Game} (hg : g.Inv) (a : ℝ) :
    Game.Inv { g with accumulator := a } :=
  ⟨hg.expandRate, hg.retractRate, hg.minRadius, hg.maxRadius, hg.smoothness,
    hg.radius_lb, hg.radius_ub, hg.target_lb, hg.target_ub, hg.clarity_lb,
    hg.clarity_ub, hg.thr_lb, hg.thr_ub, hg.gameTime_nonneg, hg.winTime_eq,
    hg.thresholdDecayRate_eq, hg.clarityRecoveryRate_eq, hg.clarityDecayRate_eq,
    hg.clarityMinRecovery_eq, hg.failureClarity_eq, hg.fixedDt_eq⟩

theorem Game.Inv.of_time_accumulator {g : Game} (hg : g.Inv) (t a : ℝ) :
    Game.Inv { g with time := t, accumulator := a } :=
  ⟨hg.expandRate, hg.retractRate, hg.minRadius, hg.maxRadius, hg.smoothness,
    hg.radius_lb, hg.radius_ub, hg.target_lb, hg.target_ub, hg.clarity_lb,
    hg.clarity_ub, hg.thr_lb, hg.thr_ub, hg.gameTime_nonneg, hg.winTime_eq,
    hg.thresholdDecayRate_eq, hg.clarityRecoveryRate_eq, hg.clarityDecayRate_eq,
    hg.clarityMinRecovery_eq, hg.failureClarity_eq, hg.fixedDt_eq⟩

theorem Game.Inv.tick {g : Game} (hg : g.Inv) (d : ℝ) : (g.tick d).Inv :=
  Game.Inv.of_accumulator
    (hg.fixedUpdate (by rw [hg.fixedDt_eq]; norm_num) d) _

@[simp] theorem Game.ticksFrom_zero (g : Game) (d : ℝ) : g.ticksFrom d 0 = g := rfl

@[simp] theorem Game.ticksFrom_succ (g : Game) (d : ℝ) (n : ℕ) :
    g.ticksFrom d (n + 1) = (g.tick d).ticksFrom d n := rfl

theorem Game.Inv.ticksFrom {g : Game} (hg : g.Inv) (d : ℝ) (n : ℕ) :
    (g.ticksFrom d n).Inv := by
  induction n generalizing g with
  | zero => exact hg
  | succ n ih => exact ih (hg.tick d)

theorem Game.Inv.update {g : Game} (hg : g.Inv) (dt d : ℝ) :
    (g.update dt d).Inv := by
  unfold Game.update
  split_ifs with h
  · exact hg
  · exact Game.Inv.ticksFrom (hg.of_time_accumulator _ _) d _

theorem Game.Inv.reset {g : Game} (hg : g.Inv) : g.reset.Inv :=
  { expandRate := by norm_num [Game.reset, Presence.init]
    retractRate := by norm_num [Game.reset, Presence.init]
    minRadius := by norm_num [Game.reset, Presence.init]
    maxRadius := by norm_num [Game.reset, Presence.init]
    smoothness := by norm_num [Game.reset, Presence.init]
    radius_lb := by norm_num [Game.reset, Presence.init]
    radius_ub := by norm_num [Game.reset, Presence.init]
    target_lb := by norm_num [Game.reset, Presence.init]
    target_ub := by norm_num [Game.reset, Presence.init]
    clarity_lb := by norm_num [Game.reset]
    clarity_ub := by norm_num [Game.reset]
    thr_lb := by norm_num [Game.reset]
    thr_ub := by norm_num [Game.reset]
    gameTime_nonneg := by norm_num [Game.reset]
    winTime_eq := hg.winTime_eq
    thresholdDecayRate_eq := hg.thresholdDecayRate_eq
    clarityRecoveryRate_eq := hg.clarityRecoveryRate_eq
    clarityDecayRate_eq := hg.clarityDecayRate_eq
    clarityMinRecovery_eq := hg.clarityMinRecovery_eq
    failureClarity_eq := hg.failureClarity_eq
    fixedDt_eq := hg.fixedDt_eq }

theorem Game.Reachable.inv {g : Game} (h : g.Reachable) : g.Inv := by
  induction h with
  | init => exact Game.inv_init
  | update g dt d hg hdt ih => exact Game.Inv.update ih dt d
  | reset g hg ih => exact Game.Inv.reset ih

/-! ### Characterizations of `Game.update` -/

theorem Game.update_of_not_playing {g : Game} (h : g.state ≠ GameState.playing)
    (dt d : ℝ) : g.update dt d = g := by
  unfold Game.update
  rw [if_pos h]

theorem Game.update_of_playing {g : Game} (h : g.state = GameState.playing)
    (dt d : ℝ) :
    g.update dt d =
      Game.ticksFrom
        ({ g with time := g.time + dt, accumulator := g.accumulator + dt }) d
        (Game.drainCount
          ({ g with time := g.time + dt, accumulator := g.accumulator + dt })) := by
  unfold Game.update
  rw [if_neg (not_not_intro h)]

@[simp] theorem Game.runCalls_nil (g : Game) : g.runCalls [] = g := rfl

@[simp] theorem Game.runCalls_cons (g : Game) (c : ℝ × ℝ) (cs : List (ℝ × ℝ)) :
    g.runCalls (c :: cs) = (g.update c.1 c.2).runCalls cs := rfl

@[simp] theorem Game.ticksWith_nil (g : Game) : g.ticksWith [] = g := rfl

@[simp] theorem Game.ticksWith_cons (g : Game) (d : ℝ) (ds : List ℝ) :
    g.ticksWith (d :: ds) = (g.tick d).ticksWith ds := rfl

theorem Game.ticksFrom_eq_ticksWith (g : Game) (d : ℝ) (n : ℕ) :
    g.ticksFrom d n = g.ticksWith (List.replicate n d) := by
  induction n generalizing g with
  | zero => rfl
  | succ n ih =>
    rw [List.replicate_succ, Game.ticksWith_cons, Game.ticksFrom_succ, ih]

/-! ### Monotonicity of the threshold and of game time -/

theorem Game.fixedUpdate_st_le {g : Game} (hg : g.Inv) {dt : ℝ} (hdt : 0 ≤ dt)
    (d : ℝ) :
    (g.fixedUpdate dt d).sustainableThreshold ≤ g.sustainableThreshold := by
  rw [Game.fixedUpdate_sustainableThreshold]
  refine max_le hg.thr_lb ?_
  have : 0 ≤ g.thresholdDecayRate * dt := by
    rw [hg.thresholdDecayRate_eq]
    have h8 : (0:ℝ) ≤ 0.008 := by norm_num
    exact mul_nonneg h8 hdt
  linarith

theorem Game.fixedUpdate_gameTime_mono (g : Game) {dt : ℝ} (hdt : 0 ≤ dt)
    (d : ℝ) : g.gameTime ≤ (g.fixedUpdate dt d).gameTime := by
  rw [Game.fixedUpdate_gameTime]
  linarith

theorem Game.tick_st_le {g : Game} (hg : g.Inv) (d : ℝ) :
    (g.tick d).sustainableThreshold ≤ g.sustainableThreshold :=
  Game.fixedUpdate_st_le hg (by rw [hg.fixedDt_eq]; norm_num) d

theorem Game.tick_gameTime_mono {g : Game} (hg : g.Inv) (d : ℝ) :
    g.gameTime ≤ (g.tick d).gameTime :=
  Game.fixedUpdate_gameTime_mono g (by rw [hg.fixedDt_eq]; norm_num) d

theorem Game.ticksFrom_st_le {g : Game} (hg : g.Inv) (d : ℝ) (n : ℕ) :
    (g.ticksFrom d n).sustainableThreshold ≤ g.sustainableThreshold := by
  induction n generalizing g with
  | zero => exact le_refl _
  | succ n ih => exact le_trans (ih (hg.tick d)) (Game.tick_st_le hg d)

theorem Game.ticksFrom_gameTime_mono {g : Game} (hg : g.Inv) (d : ℝ) (n : ℕ) :
    g.gameTime ≤ (g.ticksFrom d n).gameTime := by
  induction n generalizing g with
  | zero => exact le_refl _
  | succ n ih => exact le_trans (Game.tick_gameTime_mono hg d) (ih (hg.tick d))

theorem Game.update_st_le {g : Game} (hg : g.Inv) (dt d : ℝ) :
    (g.update dt d).sustainableThreshold ≤ g.sustainableThreshold := by
  unfold Game.update
  split_ifs with h
  · exact le_refl _
  · exact Game.ticksFrom_st_le (hg.of_time_accumulator _ _) d _

theorem Game.update_gameTime_mono {g : Game} (hg : g.Inv) (dt d : ℝ) :
    g.gameTime ≤ (g.update dt d).gameTime := by
  unfold Game.update
  split_ifs with h
  · exact le_refl _
  · exact Game.ticksFrom_gameTime_mono
      (hg.of_time_accumulator (g.time + dt) (g.accumulator + dt)) d _

theorem Game.runCalls_st_le {g : Game} (hg : g.Inv) (calls : List (ℝ × ℝ)) :
    (g.runCalls calls).sustainableThreshold ≤ g.sustainableThreshold := by
  induction calls generalizing g with
  | nil => exact le_refl _
  | cons c cs ih =>
    exact le_trans (ih (hg.update c.1 c.2)) (Game.update_st_le hg c.1 c.2)

theorem Game.runCalls_gameTime_mono {g : Game} (hg : g.Inv)
    (calls : List (ℝ × ℝ)) : g.gameTime ≤ (g.runCalls calls).gameTime := by
  induction calls generalizing g with
  | nil => exact le_refl _
  | cons c cs ih =>
    exact le_trans (Game.update_gameTime_mono hg c.1 c.2) (ih (hg.update c.1 c.2))

/-! ### Tick projections and calm-tick evaluation helpers -/

@[simp] theorem Game.tick_gameTime (g : Game) (d : ℝ) :
    (g.tick d).gameTime = g.gameTime + g.fixedDt := rfl

@[simp] theorem Game.tick_fixedDt (g : Game) (d : ℝ) :
    (g.tick d).fixedDt = g.fixedDt := rfl

@[simp] theorem Game.tick_accumulator (g : Game) (d : ℝ) :
    (g.tick d).accumulator = g.accumulator - g.fixedDt := rfl

theorem Game.tick_state (g : Game) (d : ℝ) :
    (g.tick d).state = (g.fixedUpdate g.fixedDt d).state := rfl

theorem Game.tick_clarity (g : Game) (d : ℝ) :
    (g.tick d).clarity = (g.fixedUpdate g.fixedDt d).clarity := rfl

/-- With direction 0 and the target already at the current radius, a
presence update moves nothing: the radius and target stay put. -/
theorem calmPresence_update (p : Presence) (dt : ℝ)
    (hp : p.targetRadius = p.radius)
    (hmin : p.minRadius ≤ p.radius) (hmax : p.radius ≤ p.maxRadius) :
    ((p.setExpandDirection 0).update dt).radius = p.radius ∧
      ((p.setExpandDirection 0).update dt).targetRadius = p.radius := by
  have hd : (p.setExpandDirection 0).expandDirection = 0 := by
    rw [Presence.setExpandDirection_expandDirection]
    norm_num
  have htr : ((p.setExpandDirection 0).update dt).targetRadius = p.radius := by
    rw [Presence.update_targetRadius, hd, if_neg (by norm_num), if_neg (by norm_num),
      Presence.setExpandDirection_targetRadius, Presence.setExpandDirection_minRadius,
      Presence.setExpandDirection_maxRadius, hp, min_eq_right hmax, max_eq_right hmin]
  refine ⟨?_, htr⟩
  rw [Presence.update_radius, htr, Presence.setExpandDirection_radius]
  ring

/-- A calm tick (direction 0, target at radius, radius below the decayed
threshold) has zero overextension. -/
theorem calm_overextension_zero (g : Game) (dt : ℝ)
    (hp : g.presence.targetRadius = g.presence.radius)
    (hmin : g.presence.minRadius ≤ g.presence.radius)
    (hmax : g.presence.radius ≤ g.presence.maxRadius)
    (hth : g.presence.radius ≤
      max 0.1 (g.sustainableThreshold - g.thresholdDecayRate * dt)) :
    ((g.presence.setExpandDirection 0).update dt).getOverextension
      (max 0.1 (g.sustainableThreshold - g.thresholdDecayRate * dt)) = 0 := by
  have h := calmPresence_update g.presence dt hp hmin hmax
  unfold Presence.getOverextension
  rw [if_pos]
  rw [h.1]
  exact hth

/-! ### Claim C3 -/

/-- C3: for every `dt ≥ 0` and every direction, calling `update(dt, direction)`
on a controller whose phase is already WON or FAILED changes no field of the
controller or its Presence — the resulting state is equal to the input state. -/
theorem update_terminal_noop (g : Game) (dt d : ℝ) (hdt : 0 ≤ dt)
    (h : g.state = GameState.won ∨ g.state = GameState.failed) :
    g.update dt d = g := by
  have hne : g.state ≠ GameState.playing := by
    rcases h with h | h <;> rw [h] <;> intro hc <;> exact GameState.noConfusion hc
  exact Game.update_of_not_playing hne dt d

/-- Witness for C3: a concrete WON controller is untouched by `update 1 0`. -/
theorem update_terminal_noop_witness :
    (0:ℝ) ≤ 1 ∧
      ({ Game.init with state := GameState.won } : Game).state = GameState.won ∧
      ({ Game.init with state := GameState.won } : Game).update 1 0 =
        { Game.init with state := GameState.won } :=
  ⟨by norm_num, rfl,
    update_terminal_noop { Game.init with state := GameState.won } 1 0
      (by norm_num) (Or.inl rfl)⟩

/-! ### Claim C4 -/

/-- C4: in every state reachable from the initial controller by `update`
calls (with `dt ≥ 0`; the direction is clamped by the presence so any
direction, in particular every direction in [-1,1], is covered), the
presence radius lies in `[minRadius, maxRadius]`, clarity lies in `[0, 1]`,
and the sustainable threshold lies in `[0.1, 1]` (0.1 is the threshold
floor of `game.js`). -/
theorem reachable_bounds (g : Game) (h : g.Reachable) :
    (g.presence.minRadius ≤ g.presence.radius ∧
        g.presence.radius ≤ g.presence.maxRadius) ∧
      (0 ≤ g.clarity ∧ g.clarity ≤ 1) ∧
      0.1 ≤ g.sustainableThreshold ∧ g.sustainableThreshold ≤ 1 :=
  ⟨⟨h.inv.radius_lb, h.inv.radius_ub⟩, ⟨h.inv.clarity_lb, h.inv.clarity_ub⟩,
    h.inv.thr_lb, h.inv.thr_ub⟩

/-- Witness for C4 at a reachable state (one second of expansion input). -/
theorem reachable_bounds_witness :
    Game.Reachable (Game.init.update 1 1) ∧
      (((Game.init.update 1 1).presence.minRadius ≤
            (Game.init.update 1 1).presence.radius ∧
          (Game.init.update 1 1).presence.radius ≤
            (Game.init.update 1 1).presence.maxRadius) ∧
        (0 ≤ (Game.init.update 1 1).clarity ∧ (Game.init.update 1 1).clarity ≤ 1) ∧
        0.1 ≤ (Game.init.update 1 1).sustainableThreshold ∧
          (Game.init.update 1 1).sustainableThreshold ≤ 1) := by
  have hr : Game.Reachable (Game.init.update 1 1) :=
    Game.Reachable.update Game.init 1 1 Game.Reachable.init (by norm_num)
  exact ⟨hr, reachable_bounds (Game.init.update 1 1) hr⟩

/-! ### Claim C6 -/

/-- C6: for every presence whose radius lies between its bounds (with the
nondegenerate bound spacing `minRadius < maxRadius` that holds of every
presence the program constructs — the constructor fixes 0.05 < 0.6 and they
are never mutated), `getOverextension` returns 0 when `radius ≤ threshold`
and `min 1 ((radius-threshold)/(maxRadius-threshold))` otherwise; in
particular it returns 0 at `threshold = maxRadius` and exactly 1 at
`radius = maxRadius`, `threshold = minRadius`. -/
theorem getOverextension_spec (p : Presence) (th : ℝ)
    (h1 : p.minRadius ≤ p.radius) (h2 : p.radius ≤ p.maxRadius)
    (h3 : p.minRadius < p.maxRadius) :
    p.getOverextension th =
        (if p.radius ≤ th then 0
          else min 1 ((p.radius - th) / (p.maxRadius - th))) ∧
      (th = p.maxRadius → p.getOverextension th = 0) ∧
      (p.radius = p.maxRadius → th = p.minRadius → p.getOverextension th = 1) := by
  refine ⟨rfl, ?_, ?_⟩
  · intro hth
    unfold Presence.getOverextension
    rw [if_pos (hth ▸ h2)]
  · intro hr hth
    unfold Presence.getOverextension
    rw [if_neg, hr, hth, div_self (sub_ne_zero_of_ne (ne_of_gt h3))]
    · exact min_self 1
    · rw [hr, hth]
      exact not_le.mpr h3

/-- Witness for C6 at a fully expanded presence probed at the minimum radius. -/
theorem getOverextension_spec_witness :
    (({ Presence.init 0 0 with radius := 0.6 } : Presence).minRadius ≤
        ({ Presence.init 0 0 with radius := 0.6 } : Presence).radius ∧
      ({ Presence.init 0 0 with radius := 0.6 } : Presence).radius ≤
        ({ Presence.init 0 0 with radius := 0.6 } : Presence).maxRadius ∧
      ({ Presence.init 0 0 with radius := 0.6 } : Presence).minRadius <
        ({ Presence.init 0 0 with radius := 0.6 } : Presence).maxRadius) ∧
      (({ Presence.init 0 0 with radius := 0.6 } : Presence).getOverextension 0.05 =
          (if ({ Presence.init 0 0 with radius := 0.6 } : Presence).radius ≤ 0.05 then 0
            else min 1 ((({ Presence.init 0 0 with radius := 0.6 } : Presence).radius - 0.05) /
              (({ Presence.init 0 0 with radius := 0.6 } : Presence).maxRadius - 0.05))) ∧
        ((0.05:ℝ) = ({ Presence.init 0 0 with radius := 0.6 } : Presence).maxRadius →
          ({ Presence.init 0 0 with radius := 0.6 } : Presence).getOverextension 0.05 = 0) ∧
        (({ Presence.init 0 0 with radius := 0.6 } : Presence).radius =
            ({ Presence.init 0 0 with radius := 0.6 } : Presence).maxRadius →
          (0.05:ℝ) = ({ Presence.init 0 0 with radius := 0.6 } : Presence).minRadius →
          ({ Presence.init 0 0 with radius := 0.6 } : Presence).getOverextension 0.05 = 1)) := by
  refine ⟨⟨?_, ?_, ?_⟩, ?_⟩
  · norm_num [Presence.init]
  · norm_num [Presence.init]
  · norm_num [Presence.init]
  · exact getOverextension_spec { Presence.init 0 0 with radius := 0.6 } 0.05
      (by norm_num [Presence.init]) (by norm_num [Presence.init])
      (by norm_num [Presence.init])

/-! ### Claim C7 -/

/-- C7: `Presence.update(dt)` first advances `targetRadius` by
`expandRate*direction*dt` when the direction is positive, by
`retractRate*direction*dt` when negative, and not at all when zero; then
clamps the target to `[minRadius, maxRadius]`; then moves `radius` by the
fraction `1 - e^(-radiusSmoothness*dt)` of the remaining gap — an
asymptotic approach that never overshoots the (clamped) target, given the
nonnegative `dt` and smoothing constant the program always supplies. -/
theorem presence_update_spec (p : Presence) (dt : ℝ) (hdt : 0 ≤ dt)
    (hs : 0 ≤ p.radiusSmoothness) :
    (p.update dt).targetRadius =
        max p.minRadius (min p.maxRadius
          (if p.expandDirection > 0 then
            p.targetRadius + p.expandRate * p.expandDirection * dt
          else if p.expandDirection < 0 then
            p.targetRadius + p.retractRate * p.expandDirection * dt
          else p.targetRadius)) ∧
      (p.update dt).radius =
        p.radius + ((p.update dt).targetRadius - p.radius) *
          (1 - Real.exp (-p.radiusSmoothness * dt)) ∧
      (p.radius ≤ (p.update dt).targetRadius →
        p.radius ≤ (p.update dt).radius ∧
          (p.update dt).radius ≤ (p.update dt).targetRadius) ∧
      ((p.update dt).targetRadius ≤ p.radius →
        (p.update dt).targetRadius ≤ (p.update dt).radius ∧
          (p.update dt).radius ≤ p.radius) := by
  have ht0 := smoothing_nonneg hs hdt
  have ht1 := smoothing_le_one p.radiusSmoothness dt
  refine ⟨Presence.update_targetRadius p dt, Presence.update_radius p dt, ?_, ?_⟩
  · intro hle
    rw [Presence.update_radius]
    constructor
    · nlinarith [mul_nonneg (sub_nonneg.mpr hle) ht0]
    · nlinarith [mul_nonneg (sub_nonneg.mpr hle) (sub_nonneg.mpr ht1)]
  · intro hge
    rw [Presence.update_radius]
    constructor
    · nlinarith [mul_nonneg (sub_nonneg.mpr hge) (sub_nonneg.mpr ht1)]
    · nlinarith [mul_nonneg (sub_nonneg.mpr hge) ht0]

/-- Witness for C7 at a fresh presence advanced by one second. -/
theorem presence_update_spec_witness :
    (0:ℝ) ≤ 1 ∧ 0 ≤ (Presence.init 0.5 0.5).radiusSmoothness ∧
      (((Presence.init 0.5 0.5).update 1).targetRadius =
          max (Presence.init 0.5 0.5).minRadius
            (min (Presence.init 0.5 0.5).maxRadius
              (if (Presence.init 0.5 0.5).expandDirection > 0 then
                (Presence.init 0.5 0.5).targetRadius +
                  (Presence.init 0.5 0.5).expandRate *
                    (Presence.init 0.5 0.5).expandDirection * 1
              else if (Presence.init 0.5 0.5).expandDirection < 0 then
                (Presence.init 0.5 0.5).targetRadius +
                  (Presence.init 0.5 0.5).retractRate *
                    (Presence.init 0.5 0.5).expandDirection * 1
              else (Presence.init 0.5 0.5).targetRadius)) ∧
        ((Presence.init 0.5 0.5).update 1).radius =
          (Presence.init 0.5 0.5).radius +
            (((Presence.init 0.5 0.5).update 1).targetRadius -
              (Presence.init 0.5 0.5).radius) *
              (1 - Real.exp (-(Presence.init 0.5 0.5).radiusSmoothness * 1)) ∧
        ((Presence.init 0.5 0.5).radius ≤ ((Presence.init 0.5 0.5).update 1).targetRadius →
          (Presence.init 0.5 0.5).radius ≤ ((Presence.init 0.5 0.5).update 1).radius ∧
            ((Presence.init 0.5 0.5).update 1).radius ≤
              ((Presence.init 0.5 0.5).update 1).targetRadius) ∧
        (((Presence.init 0.5 0.5).update 1).targetRadius ≤ (Presence.init 0.5 0.5).radius →
          ((Presence.init 0.5 0.5).update 1).targetRadius ≤
              ((Presence.init 0.5 0.5).update 1).radius ∧
            ((Presence.init 0.5 0.5).update 1).radius ≤ (Presence.init 0.5 0.5).radius)) :=
  ⟨by norm_num, by norm_num [Presence.init],
    presence_update_spec (Presence.init 0.5 0.5) 1 (by norm_num)
      (by norm_num [Presence.init])⟩

/-! ### Claim C9 -/

/-- C9: across every sequence of `update` calls with nonnegative `dt` (and
no reset) starting at a reachable state, `sustainableThreshold` never
increases and `gameTime` never decreases. -/
theorem runCalls_monotone (g : Game) (h : g.Reachable) (calls : List (ℝ × ℝ))
    (hdts : ∀ c ∈ calls, 0 ≤ c.1) :
    (g.runCalls calls).sustainableThreshold ≤ g.sustainableThreshold ∧
      g.gameTime ≤ (g.runCalls calls).gameTime :=
  ⟨Game.runCalls_st_le h.inv calls, Game.runCalls_gameTime_mono h.inv calls⟩

/-- Witness for C9: one one-second call from the fresh controller. -/
theorem runCalls_monotone_witness :
    Game.Reachable Game.init ∧ (∀ c ∈ [((1:ℝ), (0:ℝ))], 0 ≤ c.1) ∧
      ((Game.init.runCalls [((1:ℝ), (0:ℝ))]).sustainableThreshold ≤
          Game.init.sustainableThreshold ∧
        Game.init.gameTime ≤ (Game.init.runCalls [((1:ℝ), (0:ℝ))]).gameTime) := by
  have hdts : ∀ c ∈ [((1:ℝ), (0:ℝ))], 0 ≤ c.1 := by
    intro c hc
    rw [List.mem_singleton] at hc
    rw [hc]
    norm_num
  exact ⟨Game.Reachable.init, hdts,
    runCalls_monotone Game.init Game.Reachable.init [((1:ℝ), (0:ℝ))] hdts⟩

/-! ### Claim C10 -/

/-- C10: a single `update(dt, direction)` call on a PLAYING controller
drains its accumulator through a sequence of fixed ticks that all receive
the one direction passed to the call: the result equals the
variable-direction tick semantics run on `List.replicate n direction`, so
the direction cannot vary between the internal ticks. -/
theorem update_replicates_direction (g : Game) (dt d : ℝ)
    (h : g.state = GameState.playing) :
    g.update dt d =
      Game.ticksWith
        ({ g with time := g.time + dt, accumulator := g.accumulator + dt })
        (List.replicate
          (Game.drainCount
            ({ g with time := g.time + dt, accumulator := g.accumulator + dt })) d) := by
  rw [Game.update_of_playing h, Game.ticksFrom_eq_ticksWith]

/-- Witness for C10: a fresh controller advanced by two ticks worth of time. -/
theorem update_replicates_direction_witness :
    Game.init.state = GameState.playing ∧
      Game.init.update (1/30) 1 =
        Game.ticksWith
          ({ Game.init with time := Game.init.time + 1/30, accumulator := Game.init.accumulator + 1/30 })
          (List.replicate
            (Game.drainCount
              ({ Game.init with time := Game.init.time + 1/30, accumulator := Game.init.accumulator + 1/30 })) 1) :=
  ⟨rfl, update_replicates_direction Game.init (1/30) 1 rfl⟩

/-! ### Claim C8 -/

/-- C8: on a fixed tick whose overextension (computed from the advanced
presence against the decayed threshold, exactly as the tick does) is zero,
clarity never decreases: with the target ceiling
`targetClarity = max(clarityMinRecovery, 1 - (gameTime/winTime)*0.3)`
taken at the tick's already-advanced game time, clarity increases by
`min(clarityRecoveryRate*dt, targetClarity - clarity)` when it is below the
ceiling and stays exactly unchanged when at or above it (earned clarity
above a shrunken ceiling persists).  The rate hypotheses (`dt ≥ 0`,
`clarityRecoveryRate ≥ 0`) hold on every tick the program runs. -/
theorem clarity_recovery_spec (g : Game) (dt d : ℝ) (hdt : 0 ≤ dt)
    (hr : 0 ≤ g.clarityRecoveryRate)
    (hover : ((g.presence.setExpandDirection d).update dt).getOverextension
        (max 0.1 (g.sustainableThreshold - g.thresholdDecayRate * dt)) = 0) :
    g.clarity ≤ (g.fixedUpdate dt d).clarity ∧
      (g.clarity <
          max g.clarityMinRecovery (1 - (g.gameTime + dt) / g.winTime * 0.3) →
        (g.fixedUpdate dt d).clarity =
          g.clarity + min (g.clarityRecoveryRate * dt)
            (max g.clarityMinRecovery (1 - (g.gameTime + dt) / g.winTime * 0.3) -
              g.clarity)) ∧
      (max g.clarityMinRecovery (1 - (g.gameTime + dt) / g.winTime * 0.3) ≤
          g.clarity →
        (g.fixedUpdate dt d).clarity = g.clarity) := by
  have hclar : (g.fixedUpdate dt d).clarity =
      if g.clarity <
          max g.clarityMinRecovery (1 - (g.gameTime + dt) / g.winTime * 0.3) then
        min (max g.clarityMinRecovery (1 - (g.gameTime + dt) / g.winTime * 0.3))
          (g.clarity + g.clarityRecoveryRate * dt)
      else g.clarity := by
    rw [Game.fixedUpdate_clarity, if_neg]
    rw [hover]
    exact lt_irrefl 0
  rw [hclar]
  refine ⟨?_, ?_, ?_⟩
  · split_ifs with h
    · exact le_min h.le (by linarith [mul_nonneg hr hdt])
    · exact le_refl _
  · intro h
    rw [if_pos h]
    rcases le_total (g.clarityRecoveryRate * dt)
        (max g.clarityMinRecovery (1 - (g.gameTime + dt) / g.winTime * 0.3) -
          g.clarity) with hcase | hcase
    · rw [min_eq_left hcase, min_eq_right (by linarith)]
    · rw [min_eq_right hcase, min_eq_left (by linarith)]
      ring
  · intro h
    rw [if_neg (not_lt.mpr h)]

/-- Witness for C8: the first calm tick of a fresh controller (direction 0,
`dt = 1/60`) has zero overextension, and its clarity obeys the recovery law. -/
theorem clarity_recovery_spec_witness :
    (0:ℝ) ≤ 1/60 ∧ 0 ≤ Game.init.clarityRecoveryRate ∧
      ((Game.init.presence.setExpandDirection 0).update (1/60)).getOverextension
        (max 0.1 (Game.init.sustainableThreshold -
          Game.init.thresholdDecayRate * (1/60))) = 0 ∧
      (Game.init.clarity ≤ (Game.init.fixedUpdate (1/60) 0).clarity ∧
        (Game.init.clarity <
            max Game.init.clarityMinRecovery
              (1 - (Game.init.gameTime + 1/60) / Game.init.winTime * 0.3) →
          (Game.init.fixedUpdate (1/60) 0).clarity =
            Game.init.clarity + min (Game.init.clarityRecoveryRate * (1/60))
              (max Game.init.clarityMinRecovery
                (1 - (Game.init.gameTime + 1/60) / Game.init.winTime * 0.3) -
                Game.init.clarity)) ∧
        (max Game.init.clarityMinRecovery
            (1 - (Game.init.gameTime + 1/60) / Game.init.winTime * 0.3) ≤
            Game.init.clarity →
          (Game.init.fixedUpdate (1/60) 0).clarity = Game.init.clarity)) := by
  have hover : ((Game.init.presence.setExpandDirection 0).update (1/60)).getOverextension
      (max 0.1 (Game.init.sustainableThreshold -
        Game.init.thresholdDecayRate * (1/60))) = 0 := by
    apply calm_overextension_zero
    · norm_num [Game.init, Presence.init]
    · norm_num [Game.init, Presence.init]
    · norm_num [Game.init, Presence.init]
    · refine le_trans ?_ (le_max_right _ _)
      norm_num [Game.init, Presence.init]
  exact ⟨by norm_num, by norm_num [Game.init], hover,
    clarity_recovery_spec Game.init (1/60) 0 (by norm_num)
      (by norm_num [Game.init]) hover⟩

/-! ### Claim C1 -/

/-- A presence resting at its minimum radius with its target equal to its
radius: a tick with direction 0 leaves it entirely unchanged. -/
noncomputable def restingPresence : Presence :=
  { Presence.init 0.5 0.5 with radius := 0.05, targetRadius := 0.05 }

/-- A PLAYING state on which one more fixed tick satisfies both terminal
conditions at once: game time is already at the win time, and clarity is
exhausted (it recovers only to 0.0025 on the tick, well below the 0.15
failure threshold). -/
noncomputable def tieGame : Game :=
  { Game.init with presence := restingPresence, gameTime := 180, clarity := 0 }

theorem tieGame_over :
    ((tieGame.presence.setExpandDirection 0).update (1/60)).getOverextension
      (max 0.1 (tieGame.sustainableThreshold -
        tieGame.thresholdDecayRate * (1/60))) = 0 := by
  apply calm_overextension_zero
  · norm_num [tieGame, restingPresence, Presence.init, Game.init]
  · norm_num [tieGame, restingPresence, Presence.init, Game.init]
  · norm_num [tieGame, restingPresence, Presence.init, Game.init]
  · refine le_trans ?_ (le_max_left _ _)
    norm_num [tieGame, restingPresence, Presence.init, Game.init]

theorem tieGame_win :
    tieGame.winTime ≤ (tieGame.fixedUpdate (1/60) 0).gameTime := by
  rw [Game.fixedUpdate_gameTime]
  norm_num [tieGame, Game.init]

theorem tieGame_fail :
    (tieGame.fixedUpdate (1/60) 0).clarity ≤ tieGame.failureClarity := by
  rw [Game.fixedUpdate_clarity, if_neg, if_pos]
  · refine le_trans (min_le_right _ _) ?_
    norm_num [tieGame, Game.init]
  · refine lt_of_lt_of_le ?_ (le_max_left _ _)
    norm_num [tieGame, Game.init]
  · rw [tieGame_over]
    exact lt_irrefl 0

/-- C1 counterexample: at `tieGame` both terminal conditions hold on the
same fixed tick while PLAYING, yet the resulting phase is not WON — the
fail check runs after the win check and overwrites its assignment. -/
theorem tie_resolves_failed_cex :
    tieGame.state = GameState.playing ∧
      tieGame.winTime ≤ (tieGame.fixedUpdate (1/60) 0).gameTime ∧
      (tieGame.fixedUpdate (1/60) 0).clarity ≤ tieGame.failureClarity ∧
      (tieGame.fixedUpdate (1/60) 0).state ≠ GameState.won := by
  refine ⟨rfl, tieGame_win, tieGame_fail, ?_⟩
  rw [Game.fixedUpdate_state, if_pos tieGame_fail]
  intro hc
  exact GameState.noConfusion hc

/-- C1 (amended): on a fixed tick where both terminal conditions hold
simultaneously while PLAYING, the phase becomes FAILED: the win check is
evaluated first, but the fail check is an independent statement evaluated
afterwards and its assignment overwrites WON, so exact-boundary ties
resolve in favor of failing. -/
theorem tie_resolves_failed (g : Game) (dt d : ℝ)
    (hplay : g.state = GameState.playing)
    (hwin : g.winTime ≤ (g.fixedUpdate dt d).gameTime)
    (hfail : (g.fixedUpdate dt d).clarity ≤ g.failureClarity) :
    (g.fixedUpdate dt d).state = GameState.failed := by
  rw [Game.fixedUpdate_state, if_pos hfail]

/-- Witness for C1 (amended) at the concrete tie state. -/
theorem tie_resolves_failed_witness :
    tieGame.state = GameState.playing ∧
      tieGame.winTime ≤ (tieGame.fixedUpdate (1/60) 0).gameTime ∧
      (tieGame.fixedUpdate (1/60) 0).clarity ≤ tieGame.failureClarity ∧
      (tieGame.fixedUpdate (1/60) 0).state = GameState.failed :=
  ⟨rfl, tieGame_win, tieGame_fail,
    tie_resolves_failed tieGame (1/60) 0 rfl tieGame_win tieGame_fail⟩

/-! ### Claim C2 -/

/-- A PLAYING state one fixed tick short of the win time, with full clarity
and a resting presence. -/
noncomputable def wonTickGame : Game :=
  { Game.init with presence := restingPresence, gameTime := 180 - 1/60 }

/-- `wonTickGame` after `update(2/60, 0)` has banked its wall-clock time:
the state the two drained ticks start from. -/
noncomputable def wonTickAccum : Game :=
  { wonTickGame with time := wonTickGame.time + 2/60, accumulator := wonTickGame.accumulator + 2/60 }

theorem wonTickAccum_over :
    ((wonTickAccum.presence.setExpandDirection 0).update wonTickAccum.fixedDt).getOverextension
      (max 0.1 (wonTickAccum.sustainableThreshold -
        wonTickAccum.thresholdDecayRate * wonTickAccum.fixedDt)) = 0 := by
  apply calm_overextension_zero
  · norm_num [wonTickAccum, wonTickGame, restingPresence, Presence.init, Game.init]
  · norm_num [wonTickAccum, wonTickGame, restingPresence, Presence.init, Game.init]
  · norm_num [wonTickAccum, wonTickGame, restingPresence, Presence.init, Game.init]
  · refine le_trans ?_ (le_max_left _ _)
    norm_num [wonTickAccum, wonTickGame, restingPresence, Presence.init, Game.init]

theorem wonTickAccum_tick_clarity :
    (wonTickAccum.fixedUpdate wonTickAccum.fixedDt 0).clarity =
      wonTickAccum.clarity := by
  rw [Game.fixedUpdate_clarity, if_neg, if_neg]
  · rw [not_lt]
    refine max_le ?_ ?_ <;>
      norm_num [wonTickAccum, wonTickGame, Game.init]
  · rw [wonTickAccum_over]
    exact lt_irrefl 0

theorem wonTickAccum_tick_won :
    (wonTickAccum.tick 0).state = GameState.won := by
  rw [Game.tick_state, Game.fixedUpdate_state, wonTickAccum_tick_clarity,
    if_neg, if_pos]
  · norm_num [wonTickAccum, wonTickGame, Game.init]
  · norm_num [wonTickAccum, wonTickGame, Game.init]

theorem wonTickGame_drain : Game.drainCount wonTickAccum = 2 := by
  unfold Game.drainCount
  have h2 : wonTickAccum.accumulator / wonTickAccum.fixedDt = (2:ℝ) := by
    norm_num [wonTickAccum, wonTickGame, Game.init]
  rw [h2]
  exact Nat.floor_ofNat 2

theorem wonTickGame_update :
    wonTickGame.update (2/60) 0 = (wonTickAccum.tick 0).tick 0 := by
  rw [Game.update_of_playing rfl]
  show Game.ticksFrom wonTickAccum 0 (Game.drainCount wonTickAccum) = _
  rw [wonTickGame_drain, Game.ticksFrom_succ, Game.ticksFrom_succ,
    Game.ticksFrom_zero]

/-- C2 counterexample: inside the single call `wonTickGame.update (2/60) 0`,
the first drained tick makes the phase WON, yet the second drained tick
(still part of the same call, as the displayed equality of the call's
result shows) mutates `gameTime` after that terminal transition. -/
theorem terminal_tick_mutation_cex :
    wonTickGame.state = GameState.playing ∧
      (wonTickAccum.tick 0).state = GameState.won ∧
      wonTickGame.update (2/60) 0 = (wonTickAccum.tick 0).tick 0 ∧
      ((wonTickAccum.tick 0).tick 0).gameTime ≠ (wonTickAccum.tick 0).gameTime := by
  refine ⟨rfl, wonTickAccum_tick_won, wonTickGame_update, ?_⟩
  rw [Game.tick_gameTime, Game.tick_gameTime, Game.tick_fixedDt]
  norm_num [wonTickAccum, wonTickGame, Game.init]

/-- C2 (amended): at update-call granularity the terminal states really are
frozen: once the phase is WON or FAILED at a call boundary, every later
sequence of `update` calls returns the state unchanged, so the exact
terminal value and `clarity`, `gameTime`, and `sustainableThreshold` are
never mutated again.  (Ticks drained inside the one call in which the
transition occurred do, however, keep running and mutating those fields,
which is what the counterexample exhibits.) -/
theorem runCalls_terminal_frozen (g : Game) (calls : List (ℝ × ℝ))
    (h : g.state ≠ GameState.playing) : g.runCalls calls = g := by
  induction calls with
  | nil => rfl
  | cons c cs ih =>
    rw [Game.runCalls_cons, Game.update_of_not_playing h]
    exact ih

/-- Witness for C2 (amended) at a concrete FAILED controller and two calls. -/
theorem runCalls_terminal_frozen_witness :
    ({ Game.init with state := GameState.failed } : Game).state ≠ GameState.playing ∧
      Game.runCalls { Game.init with state := GameState.failed }
          [((1:ℝ), (0:ℝ)), ((2:ℝ), (1:ℝ))] =
        { Game.init with state := GameState.failed } :=
  ⟨fun hc => GameState.noConfusion hc,
    runCalls_terminal_frozen { Game.init with state := GameState.failed }
      [((1:ℝ), (0:ℝ)), ((2:ℝ), (1:ℝ))] (fun hc => GameState.noConfusion hc)⟩

/-! ### Claim C5 -/

/-- C5 counterexample: after the reachable half-tick call
`update(1/120, 0)` (which banks 1/120 s in the accumulator without draining
a tick), `reset()` does not return the fresh-constructor state: the
residual accumulator survives the reset. -/
theorem reset_not_fresh_cex :
    Game.Reachable (Game.init.update (1/120) 0) ∧
      (Game.init.update (1/120) 0).reset ≠ Game.init := by
  have hupd : Game.init.update (1/120) 0 =
      ({ Game.init with time := Game.init.time + 1/120, accumulator := Game.init.accumulator + 1/120 }) := by
    rw [Game.update_of_playing rfl]
    have hd : Game.drainCount
        ({ Game.init with time := Game.init.time + 1/120, accumulator := Game.init.accumulator + 1/120 }) = 0 := by
      unfold Game.drainCount
      have hq : ({ Game.init with time := Game.init.time + 1/120, accumulator := Game.init.accumulator + 1/120 } : Game).accumulator /
          ({ Game.init with time := Game.init.time + 1/120, accumulator := Game.init.accumulator + 1/120 } : Game).fixedDt = (1:ℝ)/2 := by
        norm_num [Game.init]
      rw [hq, Nat.floor_eq_zero]
      norm_num
    rw [hd, Game.ticksFrom_zero]
  refine ⟨Game.Reachable.update Game.init (1/120) 0 Game.Reachable.init (by norm_num), ?_⟩
  rw [hupd]
  intro hEq
  have hacc := congrArg Game.accumulator hEq
  norm_num [Game.reset, Game.init] at hacc

/-- C5 (amended): after `reset()` from any reachable state, every field of
the controller equals that of a newly constructed controller except
`accumulator`, which keeps its pre-reset residual value (the source reset
does not touch it); the reset state therefore equals a fresh controller
exactly when that residual is zero. -/
theorem reset_eq_init_except_accumulator (g : Game) (h : g.Reachable) :
    g.reset = { Game.init with accumulator := g.accumulator } := by
  have hi := h.inv
  exact Game.ext rfl rfl rfl rfl hi.winTime_eq rfl rfl hi.thresholdDecayRate_eq
    hi.clarityRecoveryRate_eq hi.clarityDecayRate_eq hi.clarityMinRecovery_eq
    hi.failureClarity_eq hi.fixedDt_eq rfl

/-- Witness for C5 (amended) at the fresh controller itself. -/
theorem reset_eq_init_except_accumulator_witness :
    Game.Reachable Game.init ∧
      Game.init.reset = { Game.init with accumulator := Game.init.accumulator } :=
  ⟨Game.Reachable.init,
    reset_eq_init_except_accumulator Game.init Game.Reachable.init⟩

end Reach
